import Mathlib

/-!
# Kekstagram upload wizard (`src/js/upload.js`)

A shallow embedding of the upload / crop / filter wizard:

* the JavaScript primitives the module relies on (`parseInt(_, 10)`, string to number
  conversion, string comparison, string concatenation, a fragment of `RegExp`);
* the page state the module reads and writes (`Upload`);
* the module's functions and event handlers, one Lean definition per source function.

Numbers are modelled as exact integers (plus `NaN` where `parseInt` can produce it).  The
module computes in doubles, which agree with the exact integers as long as operands and
results are safe integers (`isSafeInteger`); a statement that depends on the value of a
difference carries that range as a hypothesis.  A function that throws in JavaScript returns
`Except.error` here; so does one whose string operand is not an integer literal
(`Failure.unsupportedNumber`), where the module goes on with a fractional number or `NaN`
that the model does not represent.
-/

namespace Kekstagram

/-! ## JavaScript primitives -/

/-- Why a modelled call produced no state. -/
inductive Failure where
  /-- A property was read from `null` or `undefined`. -/
  | typeError
  /-- A string was converted to a number that is not a plain decimal integer (fractions,
  exponents, hexadecimal, `Infinity`, `NaN`): such numbers are outside the model.  The
  module itself does not throw there. -/
  | unsupportedNumber
deriving DecidableEq, Repr

/-- The result of `parseInt`: an integer or `NaN`. -/
inductive JSNum where
  | nan
  | int (i : Int)
deriving DecidableEq, Repr

/-- Number addition, the `+` of two numbers: `NaN` is absorbing. -/
def JSNum.add : JSNum → JSNum → JSNum
  | .int a, .int b => .int (a + b)
  | _, _ => .nan

/-- The comparison `a > b` of two numbers: false as soon as one side is `NaN`. -/
def JSNum.gt : JSNum → JSNum → Bool
  | .int a, .int b => decide (b < a)
  | _, _ => false

/-- The characters `StrWhiteSpaceChar` of ECMAScript (white space and line terminators). -/
def isStrWhiteSpaceChar (c : Char) : Bool :=
  let n := c.toNat
  n == 9 || n == 10 || n == 11 || n == 12 || n == 13 || n == 32 || n == 160
    || n == 0x1680 || (0x2000 ≤ n && n ≤ 0x200A) || n == 0x2028 || n == 0x2029
    || n == 0x202F || n == 0x205F || n == 0x3000 || n == 0xFEFF

/-- Decimal digits `0` to `9`. -/
def isDecimalDigit (c : Char) : Bool := 48 ≤ c.toNat && c.toNat ≤ 57

/-- The value of a list of decimal digits, most significant first. -/
def digitsValue (ds : List Char) : Nat :=
  ds.foldl (fun acc c => 10 * acc + (c.toNat - 48)) 0

/-- Applies a sign to a magnitude. -/
def signed (neg : Bool) (n : Nat) : Int := if neg then -(n : Int) else (n : Int)

/-- Splits an optional leading `+` or `-` from a character list; the flag says `-`. -/
def splitSign : List Char → Bool × List Char
  | '-' :: rest => (true, rest)
  | '+' :: rest => (false, rest)
  | cs => (false, cs)

/-- The call `parseInt(string, 10)`: skip leading white space, read an optional sign, then the
longest run of decimal digits; `NaN` when that run is empty.  Whatever follows is ignored. -/
def parseInt (string : String) : JSNum :=
  let body := splitSign (string.data.dropWhile isStrWhiteSpaceChar)
  let z := body.2.takeWhile isDecimalDigit
  if z.isEmpty then .nan else .int (signed body.1 (digitsValue z))

/-- Removes white space at both ends. -/
def trimWhiteSpace (cs : List Char) : List Char :=
  ((cs.dropWhile isStrWhiteSpaceChar).reverse.dropWhile isStrWhiteSpaceChar).reverse

/-- The conversion of a string to a number (as done by the `-` operator), on the integer
fragment: the empty or blank string is `0`, an optionally signed run of decimal digits is
its value; every other string yields `none` (its number is outside the model). -/
def toNumber (string : String) : Option Int :=
  match trimWhiteSpace string.data with
  | [] => some 0
  | cs =>
    let body := splitSign cs
    if !body.2.isEmpty && body.2.all isDecimalDigit then
      some (signed body.1 (digitsValue body.2))
    else none

/-- The conversion of an integer number to a string: its decimal representation. -/
def numberToString (i : Int) : String := toString i

/-- The integers a double represents without rounding of neighbours, `Number.isSafeInteger`:
magnitude at most `2^53 - 1`. -/
def isSafeInteger (i : Int) : Bool :=
  decide (-9007199254740991 ≤ i ∧ i ≤ 9007199254740991)

/-- The UTF-16 code units of a character. -/
def utf16 (c : Char) : List Nat :=
  if c.toNat < 0x10000 then [c.toNat]
  else [0xD800 + (c.toNat - 0x10000) / 0x400, 0xDC00 + (c.toNat - 0x10000) % 0x400]

/-- A string as JavaScript sees it: a sequence of UTF-16 code units. -/
def codeUnits (s : String) : List Nat := s.data.flatMap utf16

/-- Lexicographic order on code unit sequences (the order of `<` on two strings). -/
def codeUnitsLt : List Nat → List Nat → Bool
  | [], [] => false
  | [], _ :: _ => true
  | _ :: _, [] => false
  | a :: as, b :: bs => decide (a < b) || (a == b && codeUnitsLt as bs)

/-- The comparison `a > b` when both operands are strings. -/
def stringGt (a b : String) : Bool := codeUnitsLt (codeUnits b) (codeUnits a)

/-! ## A fragment of `RegExp` -/

/-- Regular expressions built from literal code units, `^`, `$`, sequencing, alternation. -/
inductive Re where
  | empty
  | chr (c : Nat)
  | bol
  | eol
  | seq (a b : Re)
  | alt (a b : Re)
deriving DecidableEq, Repr

/-- The pattern characters with a special meaning: `^ $ \ . * + ? ( ) [ ] { } |`. -/
def isPatternSpecial (c : Nat) : Bool :=
  c == 94 || c == 36 || c == 92 || c == 46 || c == 42 || c == 43 || c == 63 || c == 40
    || c == 41 || c == 91 || c == 93 || c == 123 || c == 125 || c == 124

mutual
/-- Parses an alternative: a sequence of terms up to `|`, `)` or the end of the pattern.
Supported terms are `^` (94), `$` (36), a group `( ... )` (40, 41), an escaped special
character or `/` after `\` (92), and an ordinary character.  Quantifiers, classes and other
escapes give `none`. -/
def parseAlternative : Nat → List Nat → Option (Re × List Nat)
  | 0, _ => none
  | _ + 1, [] => some (.empty, [])
  | fuel + 1, c :: rest =>
    if c = 124 ∨ c = 41 then some (.empty, c :: rest)
    else if c = 94 then (parseAlternative fuel rest).map fun p => (.seq .bol p.1, p.2)
    else if c = 36 then (parseAlternative fuel rest).map fun p => (.seq .eol p.1, p.2)
    else if c = 40 then
      match parseDisjunction fuel rest with
      | some (d, 41 :: rest2) => (parseAlternative fuel rest2).map fun p => (.seq d p.1, p.2)
      | _ => none
    else if c = 92 then
      match rest with
      | e :: rest2 =>
        if isPatternSpecial e || e == 47 then
          (parseAlternative fuel rest2).map fun p => (.seq (.chr e) p.1, p.2)
        else none
      | [] => none
    else if isPatternSpecial c then none
    else (parseAlternative fuel rest).map fun p => (.seq (.chr c) p.1, p.2)
/-- Parses a disjunction: alternatives separated by `|` (124). -/
def parseDisjunction : Nat → List Nat → Option (Re × List Nat)
  | 0, _ => none
  | fuel + 1, cs =>
    match parseAlternative fuel cs with
    | some (a, 124 :: rest) => (parseDisjunction fuel rest).map fun p => (.alt a p.1, p.2)
    | r => r
end

/-- Compiles a pattern source; `none` when the pattern is malformed or leaves the fragment. -/
def parsePattern (source : String) : Option Re :=
  match parseDisjunction (2 * (codeUnits source).length + 2) (codeUnits source) with
  | some (re, []) => some re
  | _ => none

/-- Upper-casing of a code unit below 128: `a`..`z` go to `A`..`Z`. -/
def asciiUpper (c : Nat) : Nat := if 97 ≤ c ∧ c ≤ 122 then c - 32 else c

/-- The `Canonicalize` operation of a case-insensitive, non-unicode `RegExp`: the code unit
is upper-cased, except that a code unit of 128 or more is never mapped below 128.
`toUpperCase` is the upper-casing of code units of 128 or more (the Unicode table, a
parameter here; it returns its argument when the upper case is not a single code unit). -/
def canonicalize (toUpperCase : Nat → Nat) (ch : Nat) : Nat :=
  if ch < 128 then asciiUpper ch
  else if toUpperCase ch < 128 then ch else toUpperCase ch

/-- Backtracking matcher in continuation style.  The flag tells whether the current position
is the start of the input; the continuation receives the position after the match. -/
def Re.run (canon : Nat → Nat) : Re → Bool → List Nat → (Bool → List Nat → Bool) → Bool
  | .empty, st, inp, k => k st inp
  | .chr _, _, [], _ => false
  | .chr c, _, d :: rest, k => if canon d = canon c then k false rest else false
  | .bol, st, inp, k => st && k st inp
  | .eol, st, inp, k => inp.isEmpty && k st inp
  | .seq a b, st, inp, k => a.run canon st inp (fun st2 inp2 => b.run canon st2 inp2 k)
  | .alt a b, st, inp, k => a.run canon st inp k || b.run canon st inp k

/-- Searches for a match starting at the current position or at any later one. -/
def Re.searchFrom (canon : Nat → Nat) (re : Re) : Bool → List Nat → Bool
  | st, [] => re.run canon st [] (fun _ _ => true)
  | st, c :: rest =>
    re.run canon st (c :: rest) (fun _ _ => true) || Re.searchFrom canon re false rest

/-- The method `test` of a `RegExp` with flag `i` (no `g`, no `y`). -/
def Re.test (toUpperCase : Nat → Nat) (re : Re) (input : String) : Bool :=
  re.searchFrom (canonicalize toUpperCase) true (codeUnits input)

/-- Replaces the first occurrence of `pat` (the method `replace` with a string pattern). -/
def replaceFirst (pat rep : List Char) : List Char → List Char
  | [] => if pat.isEmpty then rep else []
  | c :: cs =>
    if pat.isPrefixOf (c :: cs) then rep ++ (c :: cs).drop pat.length
    else c :: replaceFirst pat rep cs

/-- Lower-casing of a code unit: `A`..`Z` go to `a`..`z`, everything else is kept. -/
def asciiLower (c : Nat) : Nat := if 65 ≤ c ∧ c ≤ 90 then c + 32 else c

/-- Two strings are equal when letter case (of the letters `A`..`Z`) is ignored. -/
def equalsIgnoringCase (a b : String) : Bool :=
  (codeUnits a).map asciiLower == (codeUnits b).map asciiLower

/-! ## Page state -/

/-- The crop helper (`Resizer`, an external module).  Only the decoded image's natural
dimensions are read by `upload.js`; `serial` is the object's identity (construction order). -/
structure Resizer where
  serial : Nat
  naturalWidth : Nat
  naturalHeight : Nat
deriving DecidableEq, Repr

/-- A number field of the resize form: its value and its `min` / `max` attributes. -/
structure NumberInput where
  value : String
  min : String
  max : String
deriving DecidableEq, Repr

/-- The state `upload.js` reads and writes.  The last four fields are bookkeeping: how many
helpers were constructed, which of them have not been removed, how often `remove` was
called, and how many file reads were started / have completed. -/
structure Upload where
  currentResizer : Option Resizer
  uploadFormInvisible : Bool
  resizeFormInvisible : Bool
  filterFormInvisible : Bool
  uploadMessageInvisible : Bool
  uploadMessageError : Bool
  resizeX : NumberInput
  resizeY : NumberInput
  resizeSide : NumberInput
  submitDisabled : Bool
  filterImageFrom : Option Nat
  constructed : Nat
  live : List Nat
  removeCalls : Nat
  readsStarted : Nat
  loadsFired : Nat
deriving DecidableEq, Repr

/-- `enum Action`. -/
inductive Action where
  | ERROR
  | UPLOADING
  | CUSTOM
deriving DecidableEq, Repr

/-! ## `upload.js` -/

/-- The keys of `FileType`, in insertion order (what `Object.keys` returns). -/
def FileType : List String := ["GIF", "JPEG", "PNG", "SVG+XML"]

/-- The pattern source handed to `new RegExp`: the keys joined by `|`, the first `+` replaced
by `\+`, wrapped in `^image/(` and `)$`. -/
def fileRegExpSource : String :=
  "^image/(" ++ String.mk (replaceFirst "+".data "\\+".data ("|".intercalate FileType).data)
    ++ ")$"

/-- The compiled `fileRegExp`.  The source compiles (`fileRegExp_compiled`); the fallback of
`getD`, an expression that matches nothing, is never used. -/
def fileRegExp : Re := (parsePattern fileRegExpSource).getD (.seq (.chr 0) .bol)

/-- `Resizer.prototype.remove`, as far as the page state sees it: the helper is no longer
live, and one more call of `remove` has happened. -/
def Resizer.remove (r : Resizer) (s : Upload) : Upload :=
  { s with live := s.live.erase r.serial, removeCalls := s.removeCalls + 1 }

/-- `cleanupResizer`: removes the current helper, if there is one, and clears the reference. -/
def cleanupResizer (s : Upload) : Except Failure Upload :=
  match s.currentResizer with
  | some r => .ok { r.remove s with currentResizer := none }
  | none => .ok s

/-- `resizeFormIsValid`. -/
def resizeFormIsValid : Bool := true

/-- `showMessage` (the message text itself is not part of the state). -/
def showMessage (action : Action) (s : Upload) : Upload :=
  let isError := match action with
    | .ERROR => true
    | _ => false
  { s with uploadMessageInvisible := false, uploadMessageError := isError }

/-- `hideMessage`. -/
def hideMessage (s : Upload) : Upload := { s with uploadMessageInvisible := true }

/-- `fileReader.onload`: a file read has completed and decoded to an image of the given
natural dimensions. -/
def fileReaderOnload (naturalWidth naturalHeight : Nat) (s : Upload) :
    Except Failure Upload := do
  let s1 ← cleanupResizer s
  let r : Resizer := ⟨s1.constructed, naturalWidth, naturalHeight⟩
  let s2 := { s1 with
    currentResizer := some r, constructed := s1.constructed + 1, live := r.serial :: s1.live }
  let s3 := { s2 with uploadMessageInvisible := true }
  let s4 := { s3 with uploadFormInvisible := true, resizeFormInvisible := false }
  pure { hideMessage s4 with loadsFired := s4.loadsFired + 1 }

/-- `uploadForm.onchange`.  `targetId` is `evt.target.id`, `fileType` the `type` of
`element.files[0]` (`none` when the file list is empty). -/
def uploadFormOnchange (toUpperCase : Nat → Nat) (targetId : String)
    (fileType : Option String) (s : Upload) : Except Failure Upload :=
  if targetId = "upload-file" then
    match fileType with
    | none => .error .typeError
    | some t =>
      if fileRegExp.test toUpperCase t then
        let s1 := showMessage .UPLOADING s
        .ok { s1 with readsStarted := s1.readsStarted + 1 }
      else
        .ok (showMessage .ERROR s)
  else .ok s

/-- `resizeForm.onreset` (the background picture set by `updateBackground` is not part of
the state). -/
def resizeFormOnreset (s : Upload) : Except Failure Upload := do
  let s1 ← cleanupResizer s
  pure { s1 with resizeFormInvisible := true, uploadFormInvisible := false }

/-- `resizeForm.onsubmit`. -/
def resizeFormOnsubmit (s : Upload) : Except Failure Upload :=
  if resizeFormIsValid then
    match s.currentResizer with
    | none => .error .typeError
    | some r =>
      .ok { s with
        filterImageFrom := some r.serial, resizeFormInvisible := true,
        filterFormInvisible := false }
  else .ok s

/-- `filterForm.onreset`. -/
def filterFormOnreset (s : Upload) : Except Failure Upload :=
  .ok { s with filterFormInvisible := true, resizeFormInvisible := false }

/-- `filterForm.onsubmit`. -/
def filterFormOnsubmit (s : Upload) : Except Failure Upload := do
  let s1 ← cleanupResizer s
  pure { s1 with filterFormInvisible := true, uploadFormInvisible := false }

/-- `resizeWidth(size, side)`. -/
def resizeWidth (size side : String) (s : Upload) : Except Failure Upload :=
  let sum := (parseInt size).add (parseInt side)
  match s.currentResizer with
  | none => .error .typeError
  | some r =>
    if sum.gt (.int r.naturalWidth) then
      .ok { s with
        resizeX := { s.resizeX with max := numberToString r.naturalWidth },
        resizeSide := { s.resizeSide with max := numberToString 0 } }
    else
      match toNumber s.resizeX.value with
      | none => .error .unsupportedNumber
      | some x =>
        .ok { s with
          resizeX := { s.resizeX with
            max := s.resizeX.value ++ numberToString (r.naturalWidth - x) },
          resizeSide := { s.resizeSide with max := numberToString (r.naturalWidth - x) } }

/-- `resizeHeight(size, side)`. -/
def resizeHeight (size side : String) (s : Upload) : Except Failure Upload :=
  let sum := (parseInt size).add (parseInt side)
  match s.currentResizer with
  | none => .error .typeError
  | some r =>
    if sum.gt (.int r.naturalHeight) then
      .ok { s with
        resizeY := { s.resizeY with max := numberToString r.naturalHeight },
        resizeSide := { s.resizeSide with max := numberToString 0 } }
    else
      match toNumber s.resizeY.value with
      | none => .error .unsupportedNumber
      | some y =>
        .ok { s with
          resizeY := { s.resizeY with
            max := s.resizeY.value ++ numberToString (r.naturalHeight - y) },
          resizeSide := { s.resizeSide with max := numberToString (r.naturalHeight - y) } }

/-- `resizingSide(sizeX, sizeY)`; both arguments are strings, so `>` compares strings. -/
def resizingSide (sizeX sizeY : String) (s : Upload) : Except Failure Upload :=
  match s.currentResizer with
  | none => .error .typeError
  | some r =>
    if stringGt sizeX sizeY then
      match toNumber s.resizeX.value with
      | none => .error .unsupportedNumber
      | some x =>
        .ok { s with
          resizeSide := { s.resizeSide with max := numberToString (r.naturalWidth - x) } }
    else
      match toNumber s.resizeY.value with
      | none => .error .unsupportedNumber
      | some y =>
        .ok { s with
          resizeSide := { s.resizeSide with max := numberToString (r.naturalHeight - y) } }

/-- The loop of `valid`: `disabled` is the submit button's flag, the list holds
`validity.valid` of the form's elements in order. -/
def validLoop : List Bool → Bool → Bool
  | [], disabled => disabled
  | isValid :: rest, _ => if !isValid then !isValid else validLoop rest false

/-- `valid()`, given `validity.valid` of each element of the resize form. -/
def valid (elements : List Bool) (s : Upload) : Upload :=
  { s with submitDisabled := validLoop elements s.submitDisabled }

/-- The `change` listener of the x field; `elements` is the validity of the form's elements
once the bounds are rewritten. -/
def resizeXOnChange (elements : List Bool) (s : Upload) : Except Failure Upload := do
  let s1 ← resizeWidth s.resizeX.value s.resizeSide.value s
  pure (valid elements s1)

/-- The `change` listener of the y field. -/
def resizeYOnChange (elements : List Bool) (s : Upload) : Except Failure Upload := do
  let s1 ← resizeHeight s.resizeY.value s.resizeSide.value s
  pure (valid elements s1)

/-- The `change` listener of the side field. -/
def resizeSideOnChange (elements : List Bool) (s : Upload) : Except Failure Upload := do
  let s1 ← resizingSide s.resizeX.value s.resizeY.value s
  pure (valid elements s1)

/-- `DayFromYear` of ECMAScript: the day number of 1 January of year `y`. -/
def dayFromYear (y : Int) : Int :=
  365 * (y - 1970) + (y - 1969) / 4 - (y - 1901) / 100 + (y - 1601) / 400

/-- Leap years of the Gregorian calendar. -/
def isLeapYear (y : Int) : Bool := y % 4 == 0 && (y % 100 != 0 || y % 400 == 0)

/-- Days of the year before the first day of month `m` (1 to 12). -/
def daysBeforeMonth (y : Int) (m : Nat) : Nat :=
  (([31, if isLeapYear y then 29 else 28, 31, 30, 31, 30, 31, 31, 30, 31, 30, 31] : List Nat).take
    (m - 1)).sum

/-- The time value of the date-only ISO string `y-m-d`: midnight UTC, in milliseconds. -/
def dateOnlyUTC (y : Int) (m d : Nat) : Int :=
  (dayFromYear y + daysBeforeMonth y m + ((d : Int) - 1)) * 86400000

/-- `myBirth`, the value of `new Date('2015-08-19')`. -/
def myBirth : Int := dateOnlyUTC 2015 8 19

/-- `dateToExpire`; the two arguments are the results of the two calls of `Date.now()`. -/
def dateToExpire (now1 now2 : Int) : Int := now1 + (now2 - myBirth)

/-! ## The wizard as a transition system -/

/-- Modelled from the spec: the page markup is not part of the sources.  Initially only the
select (upload) form is visible and nothing else has happened; the field values and the
`min` attributes are the ones the module sets when it is loaded. -/
def initialState : Upload where
  currentResizer := none
  uploadFormInvisible := false
  resizeFormInvisible := true
  filterFormInvisible := true
  uploadMessageInvisible := true
  uploadMessageError := false
  resizeX := ⟨"0", "0", ""⟩
  resizeY := ⟨"0", "0", ""⟩
  resizeSide := ⟨"0", "", ""⟩
  submitDisabled := false
  filterImageFrom := none
  constructed := 0
  live := []
  removeCalls := 0
  readsStarted := 0
  loadsFired := 0

/-- The number of forms (select, resize, filter) without the class `invisible`. -/
def visibleForms (s : Upload) : Nat :=
  (if s.uploadFormInvisible then 0 else 1) + (if s.resizeFormInvisible then 0 else 1)
    + (if s.filterFormInvisible then 0 else 1)

/-- The events that create or discard crop helpers. -/
inductive HelperEvent where
  | readDone (naturalWidth naturalHeight : Nat)
  | resizeReset
  | filterSubmit
deriving DecidableEq, Repr

/-- The handler an event runs. -/
def HelperEvent.handler : HelperEvent → Upload → Except Failure Upload
  | .readDone w h => fileReaderOnload w h
  | .resizeReset => resizeFormOnreset
  | .filterSubmit => filterFormOnsubmit

/-- Runs the handlers of a sequence of events, stopping at the first one that throws. -/
def runHandlers : List HelperEvent → Upload → Except Failure Upload
  | [], s => .ok s
  | e :: rest, s =>
    match e.handler s with
    | .ok s1 => runHandlers rest s1
    | .error f => .error f

/-- The steps of the wizard. -/
inductive WizardStep where
  | selectFile (fileType : String)
  | readDone (naturalWidth naturalHeight : Nat)
  | resizeReset
  | resizeSubmit
  | filterReset
  | filterSubmit
deriving DecidableEq, Repr

/-- When a step can happen: a form is used in its own stage (it is visible), only an accepted
file starts a read, and a read can complete while one is pending.  With `lateReads = false`
a read completes only while the filter form is hidden (in the select or the resize stage). -/
def WizardStep.enabled (toUpperCase : Nat → Nat) (lateReads : Bool) :
    WizardStep → Upload → Bool
  | .selectFile t, s => !s.uploadFormInvisible && fileRegExp.test toUpperCase t
  | .readDone _ _, s =>
    decide (s.loadsFired < s.readsStarted) && (lateReads || s.filterFormInvisible)
  | .resizeReset, s => !s.resizeFormInvisible
  | .resizeSubmit, s => !s.resizeFormInvisible
  | .filterReset, s => !s.filterFormInvisible
  | .filterSubmit, s => !s.filterFormInvisible

/-- The handler a step runs. -/
def WizardStep.handler (toUpperCase : Nat → Nat) : WizardStep → Upload → Except Failure Upload
  | .selectFile t => uploadFormOnchange toUpperCase "upload-file" (some t)
  | .readDone w h => fileReaderOnload w h
  | .resizeReset => resizeFormOnreset
  | .resizeSubmit => resizeFormOnsubmit
  | .filterReset => filterFormOnreset
  | .filterSubmit => filterFormOnsubmit

/-- The page after a handler ran: every handler that throws does so before it has written
anything, so the page is then unchanged. -/
def settle (s : Upload) : Except Failure Upload → Upload
  | .ok s1 => s1
  | .error _ => s

/-- Runs a sequence of steps; `none` when a step is not enabled where it occurs. -/
def runWizard (toUpperCase : Nat → Nat) (lateReads : Bool) :
    List WizardStep → Upload → Option Upload
  | [], s => some s
  | e :: rest, s =>
    if e.enabled toUpperCase lateReads s then
      runWizard toUpperCase lateReads rest (settle s (e.handler toUpperCase s))
    else none

/-- The crop rectangle of the three fields lies inside the image: `x + side ≤ W` and
`y + side ≤ H`, the field values read with `parseInt`. -/
def cropInside (s : Upload) : Bool :=
  match s.currentResizer, parseInt s.resizeX.value, parseInt s.resizeY.value,
    parseInt s.resizeSide.value with
  | some r, .int x, .int y, .int side =>
    decide (x + side ≤ r.naturalWidth) && decide (y + side ≤ r.naturalHeight)
  | _, _, _, _ => false

/-- The side field's bounds together with the x and y bounds: the `max` attributes of the x,
y and side fields after a call, `none` when the call threw. -/
def maxBounds : Except Failure Upload → Option (String × String × String)
  | .ok s => some (s.resizeX.max, s.resizeY.max, s.resizeSide.max)
  | .error _ => none

/-- An example state in the resize stage: a helper for an image of the given dimensions and
the given field values. -/
def resizeStage (naturalWidth naturalHeight : Nat) (x y side : String) : Upload :=
  { initialState with
    currentResizer := some ⟨0, naturalWidth, naturalHeight⟩
    uploadFormInvisible := true
    resizeFormInvisible := false
    resizeX := ⟨x, "0", ""⟩
    resizeY := ⟨y, "0", ""⟩
    resizeSide := ⟨side, "", ""⟩
    constructed := 1
    live := [0]
    readsStarted := 1
    loadsFired := 1 }

/-- An example state in the filter stage: only the filter form is visible, a helper exists. -/
def filterStage : Upload :=
  { resizeStage 120 100 "0" "0" "0" with
    resizeFormInvisible := true
    filterFormInvisible := false
    filterImageFrom := some 0 }


/-! ## Auxiliary definitions used in the proofs -/

/-- The expression matching the code units `cs` one after the other, then `tail`. -/
def Re.word (cs : List Nat) (tail : Re) : Re :=
  cs.foldr (fun c r => .seq (.chr c) r) tail

/-- Strips from the input a run of code units equal to `cs` up to `canon`; `none` when the
input does not start with such a run. -/
def stripWord (canon : Nat → Nat) : List Nat → List Nat → Option (List Nat)
  | [], inp => some inp
  | _ :: _, [] => none
  | c :: cs, d :: inp => if canon d = canon c then stripWord canon cs inp else none

/-- The MIME types the upload form is meant to accept. -/
def acceptedTypes : List String := ["image/gif", "image/jpeg", "image/png", "image/svg+xml"]

/-- The live helpers are exactly the current one, if any. -/
def liveIsCurrent (s : Upload) : Prop :=
  s.live = match s.currentResizer with
    | some r => [r.serial]
    | none => []

/-- The input is, up to `canon`, exactly the run of code units `cs`. -/
def matchesWord (canon : Nat → Nat) (cs inp : List Nat) : Bool :=
  match stripWord canon cs inp with
  | some rest => rest.isEmpty
  | none => false

/-! ## Bound recomputation -/

/-- C2: when `parseInt(x) + parseInt(side)` exceeds the natural width, `resizeWidth(x, side)`
sets the x field's max to the width and the side field's max to 0; likewise `resizeHeight`
with the y field and the natural height. -/
theorem resize_clamps_when_sum_exceeds (s : Upload) (r : Resizer)
    (hr : s.currentResizer = some r) :
    (∀ (x side : String) (v : Int), (parseInt x).add (parseInt side) = .int v →
        (r.naturalWidth : Int) < v →
        resizeWidth x side s = .ok { s with
          resizeX := { s.resizeX with max := numberToString r.naturalWidth },
          resizeSide := { s.resizeSide with max := numberToString 0 } }) ∧
    (∀ (y side : String) (v : Int), (parseInt y).add (parseInt side) = .int v →
        (r.naturalHeight : Int) < v →
        resizeHeight y side s = .ok { s with
          resizeY := { s.resizeY with max := numberToString r.naturalHeight },
          resizeSide := { s.resizeSide with max := numberToString 0 } }) := by
  constructor
  · intro x side v hsum hv
    simp [resizeWidth, hr, hsum, JSNum.gt, hv]
  · intro y side v hsum hv
    simp [resizeHeight, hr, hsum, JSNum.gt, hv]

/-- The example of C2: x = 50, side = 100, W = 120 gives x max 120 and side max 0. -/
theorem resize_clamps_when_sum_exceeds_witness :
    (resizeStage 120 100 "50" "0" "100").currentResizer = some ⟨0, 120, 100⟩ ∧
    (parseInt "50").add (parseInt "100") = .int 150 ∧
    maxBounds (resizeWidth "50" "100" (resizeStage 120 100 "50" "0" "100"))
      = some ("120", "", "0") := by
  refine ⟨rfl, by decide, ?_⟩
  rw [(resize_clamps_when_sum_exceeds (resizeStage 120 100 "50" "0" "100") ⟨0, 120, 100⟩
    rfl).1 "50" "100" 150 (by decide) (by decide)]
  decide

/-- C3 (the code at the failing input): with x = 50, side = 10 and W = 120 the sum fits, and
`resizeWidth` writes the string `5070` to the x field's max (the value `50` followed by the
remaining `70`), not `120`; the side field's max is the remaining `70`.  `resizeHeight`
does the same to the y field: y = 20, side = 10, H = 100 gives `2080`. -/
theorem resize_else_branch_concatenates :
    maxBounds (resizeWidth "50" "10" (resizeStage 120 100 "50" "20" "10"))
      = some ("5070", "", "70") ∧
    maxBounds (resizeHeight "20" "10" (resizeStage 120 100 "50" "20" "10"))
      = some ("", "2080", "80") ∧
    numberToString 120 ≠ "5070" ∧ numberToString 100 ≠ "2080" := by
  decide

/-- C4 (counterexample): with x = 5, y = 0 and a 100 x 100 image the remaining extents are 95
and 100; `resizingSide` sets the side field's max to 95, the smaller one. -/
theorem resizingSide_not_larger_extent :
    maxBounds (resizingSide "5" "0" (resizeStage 100 100 "5" "0" "10"))
      = some ("", "", "95") ∧
    toNumber "5" = some 5 ∧ toNumber "0" = some 0 ∧
    numberToString (max ((100 : Int) - 5) (100 - 0)) = "100" := by
  decide

/-- C4 (amended): for integer field values x and y whose order as strings is their numeric
order, `resizingSide` called with the field values sets the side field's max to `W - x` when
`x > y` and to `H - y` otherwise, and changes nothing else. -/
theorem resizingSide_follows_larger_offset (s : Upload) (r : Resizer) (x y : Int)
    (hr : s.currentResizer = some r)
    (hx : toNumber s.resizeX.value = some x) (hy : toNumber s.resizeY.value = some y)
    (hord : stringGt s.resizeX.value s.resizeY.value = decide (y < x)) :
    resizingSide s.resizeX.value s.resizeY.value s = .ok { s with
      resizeSide := { s.resizeSide with
        max := numberToString (if y < x then r.naturalWidth - x else r.naturalHeight - y) } } := by
  by_cases h : y < x <;> simp [resizingSide, hr, hx, hy, hord, h]

/-- The amended C4 at x = 5, y = 0 on a 100 x 100 image. -/
theorem resizingSide_follows_larger_offset_witness :
    (resizeStage 100 100 "5" "0" "10").currentResizer = some ⟨0, 100, 100⟩ ∧
    toNumber (resizeStage 100 100 "5" "0" "10").resizeX.value = some 5 ∧
    toNumber (resizeStage 100 100 "5" "0" "10").resizeY.value = some 0 ∧
    maxBounds (resizingSide "5" "0" (resizeStage 100 100 "5" "0" "10"))
      = some ("", "", "95") := by
  refine ⟨rfl, by decide, by decide, ?_⟩
  have h := resizingSide_follows_larger_offset (resizeStage 100 100 "5" "0" "10") ⟨0, 100, 100⟩
    5 0 rfl (by decide) (by decide) (by decide)
  have e1 : (resizeStage 100 100 "5" "0" "10").resizeX.value = "5" := rfl
  have e2 : (resizeStage 100 100 "5" "0" "10").resizeY.value = "0" := rfl
  rw [e1, e2] at h
  rw [h]
  decide

/-- C6 (counterexample): with the clock at 1000000000000 ms (September 2001) the expiry is
560057600000, which is earlier than the clock value. -/
theorem dateToExpire_not_later_before_reference :
    dateToExpire 1000000000000 1000000000000 = 560057600000 ∧
    ¬ (1000000000000 < dateToExpire 1000000000000 1000000000000) := by
  decide

/-- C6 (amended): the reference date is 1439942400000 ms, and the expiry computed from a
clock value `now` is strictly greater than `now` exactly when `now` is later than the
reference date. -/
theorem dateToExpire_later_iff (now : Int) :
    myBirth = 1439942400000 ∧ (now < dateToExpire now now ↔ myBirth < now) := by
  refine ⟨by decide, ?_⟩
  unfold dateToExpire
  constructor <;> intro h <;> omega

/-- C10: for a non-empty list of elements, after `valid()` the submit button is disabled
exactly when some element is invalid, whatever the button's state was before; nothing else
on the page changes. -/
theorem valid_disables_iff_some_invalid (elements : List Bool) (s : Upload)
    (hne : elements ≠ []) :
    ((valid elements s).submitDisabled = true ↔ ∃ e ∈ elements, e = false) ∧
    valid elements s = { s with submitDisabled := (valid elements s).submitDisabled } := by
  refine ⟨?_, rfl⟩
  have key : ∀ (l : List Bool) (d : Bool), l ≠ [] →
      (validLoop l d = true ↔ ∃ e ∈ l, e = false) := by
    intro l
    induction l with
    | nil => intro d h; exact absurd rfl h
    | cons a t ih =>
      intro d _
      cases a with
      | false => simp [validLoop]
      | true =>
        cases t with
        | nil => simp [validLoop]
        | cons b u =>
          have := ih false (by simp)
          simp only [validLoop] at this ⊢
          simpa using this
  simpa [valid] using key elements s.submitDisabled hne

/-- C10 on a form whose second element is invalid, and on a form without invalid element
whose button was disabled. -/
theorem valid_disables_iff_some_invalid_witness :
    ([true, false, true] : List Bool) ≠ [] ∧
    (valid [true, false, true] initialState).submitDisabled = true ∧
    (valid [true, true] { initialState with submitDisabled := true }).submitDisabled = false := by
  refine ⟨by decide, ?_, by decide⟩
  exact (valid_disables_iff_some_invalid [true, false, true] initialState (by decide)).1.2
    ⟨false, by decide, rfl⟩


/-! ## Crop rectangle and bounds -/

/-- C1 (counterexample): with x = 50, side = 100 on a 120 x 200 image, the recomputation run
for a change of the x field succeeds and leaves the fields at 50 and 100, so the rectangle
still reaches beyond the width (50 + 100 > 120). -/
theorem resizeWidth_leaves_crop_outside :
    (resizeWidth (resizeStage 120 200 "50" "0" "100").resizeX.value
        (resizeStage 120 200 "50" "0" "100").resizeSide.value
        (resizeStage 120 200 "50" "0" "100")).toOption.map
      (fun s => (s.resizeX.value, s.resizeSide.value, cropInside s))
      = some ("50", "100", false) := by
  decide

theorem resizeWidth_of_gt (s : Upload) (r : Resizer) (x side : String)
    (hr : s.currentResizer = some r)
    (h : ((parseInt x).add (parseInt side)).gt (.int r.naturalWidth) = true) :
    resizeWidth x side s = .ok { s with
      resizeX := { s.resizeX with max := numberToString r.naturalWidth },
      resizeSide := { s.resizeSide with max := numberToString 0 } } := by
  simp [resizeWidth, hr, h]

theorem resizeWidth_of_not_gt (s : Upload) (r : Resizer) (x side : String) (v : Int)
    (hr : s.currentResizer = some r)
    (h : ((parseInt x).add (parseInt side)).gt (.int r.naturalWidth) = false)
    (hv : toNumber s.resizeX.value = some v) :
    resizeWidth x side s = .ok { s with
      resizeX := { s.resizeX with
        max := s.resizeX.value ++ numberToString (r.naturalWidth - v) },
      resizeSide := { s.resizeSide with max := numberToString (r.naturalWidth - v) } } := by
  simp [resizeWidth, hr, h, hv]

theorem resizeHeight_of_gt (s : Upload) (r : Resizer) (y side : String)
    (hr : s.currentResizer = some r)
    (h : ((parseInt y).add (parseInt side)).gt (.int r.naturalHeight) = true) :
    resizeHeight y side s = .ok { s with
      resizeY := { s.resizeY with max := numberToString r.naturalHeight },
      resizeSide := { s.resizeSide with max := numberToString 0 } } := by
  simp [resizeHeight, hr, h]

theorem resizeHeight_of_not_gt (s : Upload) (r : Resizer) (y side : String) (v : Int)
    (hr : s.currentResizer = some r)
    (h : ((parseInt y).add (parseInt side)).gt (.int r.naturalHeight) = false)
    (hv : toNumber s.resizeY.value = some v) :
    resizeHeight y side s = .ok { s with
      resizeY := { s.resizeY with
        max := s.resizeY.value ++ numberToString (r.naturalHeight - v) },
      resizeSide := { s.resizeSide with max := numberToString (r.naturalHeight - v) } } := by
  simp [resizeHeight, hr, h, hv]

theorem resizingSide_of_gt (s : Upload) (r : Resizer) (x y : String) (v : Int)
    (hr : s.currentResizer = some r) (h : stringGt x y = true)
    (hv : toNumber s.resizeX.value = some v) :
    resizingSide x y s = .ok { s with
      resizeSide := { s.resizeSide with max := numberToString (r.naturalWidth - v) } } := by
  simp [resizingSide, hr, h, hv]

theorem resizingSide_of_not_gt (s : Upload) (r : Resizer) (x y : String) (v : Int)
    (hr : s.currentResizer = some r) (h : stringGt x y = false)
    (hv : toNumber s.resizeY.value = some v) :
    resizingSide x y s = .ok { s with
      resizeSide := { s.resizeSide with max := numberToString (r.naturalHeight - v) } } := by
  simp [resizingSide, hr, h, hv]

/-- C1 (amended): for natural dimensions W, H below 2^32 and integer field values x, y of
magnitude at most 2^52 (where the differences the code computes in doubles are exact), each
bound recomputation succeeds and changes no field value (so the rectangle lies inside the
image afterwards exactly when it did before); what it rewrites is the side field's max, to a
safe integer `m` with `x + m ≤ W` whenever `x ≤ W` (after `resizeWidth`), with `y + m ≤ H`
whenever `y ≤ H` (after `resizeHeight`), and with `x + m = W` or `y + m = H` (after
`resizingSide`). -/
theorem recomputation_bounds_side_max (s : Upload) (r : Resizer) (x y : Int)
    (hr : s.currentResizer = some r)
    (hW : r.naturalWidth < 4294967296) (hH : r.naturalHeight < 4294967296)
    (hx : toNumber s.resizeX.value = some x) (hy : toNumber s.resizeY.value = some y)
    (hxr : -4503599627370496 ≤ x ∧ x ≤ 4503599627370496)
    (hyr : -4503599627370496 ≤ y ∧ y ≤ 4503599627370496) :
    (∃ s1 m, resizeWidth s.resizeX.value s.resizeSide.value s = .ok s1 ∧
        s1.resizeX.value = s.resizeX.value ∧ s1.resizeY.value = s.resizeY.value ∧
        s1.resizeSide.value = s.resizeSide.value ∧ cropInside s1 = cropInside s ∧
        s1.resizeSide.max = numberToString m ∧ isSafeInteger m = true ∧
        (x ≤ r.naturalWidth → x + m ≤ r.naturalWidth)) ∧
    (∃ s2 m, resizeHeight s.resizeY.value s.resizeSide.value s = .ok s2 ∧
        s2.resizeX.value = s.resizeX.value ∧ s2.resizeY.value = s.resizeY.value ∧
        s2.resizeSide.value = s.resizeSide.value ∧ cropInside s2 = cropInside s ∧
        s2.resizeSide.max = numberToString m ∧ isSafeInteger m = true ∧
        (y ≤ r.naturalHeight → y + m ≤ r.naturalHeight)) ∧
    (∃ s3 m, resizingSide s.resizeX.value s.resizeY.value s = .ok s3 ∧
        s3.resizeX.value = s.resizeX.value ∧ s3.resizeY.value = s.resizeY.value ∧
        s3.resizeSide.value = s.resizeSide.value ∧ cropInside s3 = cropInside s ∧
        s3.resizeSide.max = numberToString m ∧ isSafeInteger m = true ∧
        (x + m = r.naturalWidth ∨ y + m = r.naturalHeight)) := by
  have safeW : isSafeInteger ((r.naturalWidth : Int) - x) = true := by
    simp only [isSafeInteger, decide_eq_true_eq]
    omega
  have safeH : isSafeInteger ((r.naturalHeight : Int) - y) = true := by
    simp only [isSafeInteger, decide_eq_true_eq]
    omega
  have safe0 : isSafeInteger 0 = true := by decide
  refine ⟨?_, ?_, ?_⟩
  · cases h : ((parseInt s.resizeX.value).add (parseInt s.resizeSide.value)).gt
        (.int r.naturalWidth)
    · exact ⟨_, r.naturalWidth - x, resizeWidth_of_not_gt s r _ _ x hr h hx, rfl, rfl, rfl,
        by simp [cropInside, hr], rfl, safeW, fun _ => by omega⟩
    · exact ⟨_, 0, resizeWidth_of_gt s r _ _ hr h, rfl, rfl, rfl,
        by simp [cropInside, hr], rfl, safe0, fun hle => by omega⟩
  · cases h : ((parseInt s.resizeY.value).add (parseInt s.resizeSide.value)).gt
        (.int r.naturalHeight)
    · exact ⟨_, r.naturalHeight - y, resizeHeight_of_not_gt s r _ _ y hr h hy, rfl, rfl, rfl,
        by simp [cropInside, hr], rfl, safeH, fun _ => by omega⟩
    · exact ⟨_, 0, resizeHeight_of_gt s r _ _ hr h, rfl, rfl, rfl,
        by simp [cropInside, hr], rfl, safe0, fun hle => by omega⟩
  · cases h : stringGt s.resizeX.value s.resizeY.value
    · exact ⟨_, r.naturalHeight - y, resizingSide_of_not_gt s r _ _ y hr h hy, rfl, rfl, rfl,
        by simp [cropInside, hr], rfl, safeH, Or.inr (by omega)⟩
    · exact ⟨_, r.naturalWidth - x, resizingSide_of_gt s r _ _ x hr h hx, rfl, rfl, rfl,
        by simp [cropInside, hr], rfl, safeW, Or.inl (by omega)⟩

/-- The amended C1 at x = 50, y = 0, side = 100 on a 120 x 200 image. -/
theorem recomputation_bounds_side_max_witness :
    (resizeStage 120 200 "50" "0" "100").currentResizer = some ⟨0, 120, 200⟩ ∧
    (120 : Nat) < 4294967296 ∧ (200 : Nat) < 4294967296 ∧
    toNumber (resizeStage 120 200 "50" "0" "100").resizeX.value = some 50 ∧
    toNumber (resizeStage 120 200 "50" "0" "100").resizeY.value = some 0 ∧
    (-4503599627370496 ≤ (50 : Int) ∧ (50 : Int) ≤ 4503599627370496) ∧
    (-4503599627370496 ≤ (0 : Int) ∧ (0 : Int) ≤ 4503599627370496) ∧
    ∃ s1 m, resizeWidth "50" "100" (resizeStage 120 200 "50" "0" "100") = .ok s1 ∧
      s1.resizeSide.value = "100" ∧ s1.resizeSide.max = numberToString m ∧
      isSafeInteger m = true ∧ ((50 : Int) ≤ 120 → 50 + m ≤ 120) := by
  refine ⟨rfl, by decide, by decide, by decide, by decide, by decide, by decide, ?_⟩
  obtain ⟨s1, m, h1, _, _, h4, _, h6, h7, h8⟩ :=
    (recomputation_bounds_side_max (resizeStage 120 200 "50" "0" "100") ⟨0, 120, 200⟩ 50 0
      rfl (by decide) (by decide) (by decide) (by decide) (by decide) (by decide)).1
  exact ⟨s1, m, h1, h4, h6, h7, h8⟩

/-! ## Stage transitions -/

/-- C9 (counterexample): in the filter stage the reset handler of the filter form shows the
resize form, keeps the select form hidden and keeps the crop helper, whereas the reset
handler of the resize form shows the select form and discards the helper. -/
theorem filterFormOnreset_shows_resize_form :
    (filterFormOnreset filterStage).toOption.map (fun s =>
        (s.uploadFormInvisible, s.resizeFormInvisible, s.filterFormInvisible,
          s.currentResizer.isSome, s.removeCalls))
      = some (true, false, true, true, 0) ∧
    (resizeFormOnreset (resizeStage 120 100 "0" "0" "0")).toOption.map (fun s =>
        (s.uploadFormInvisible, s.resizeFormInvisible, s.filterFormInvisible,
          s.currentResizer.isSome, s.removeCalls))
      = some (false, true, true, false, 1) := by
  decide

/-- C9 (amended): run in the filter stage (only the filter form visible), the reset handler
of the filter form performs the transition from Filter to Resize: afterwards the resize form
is visible, the select and filter forms are hidden, and the crop helper is kept (no call of
`remove`); nothing else changes.  This is unlike the reset handler of the resize form, which,
run in the resize stage (only the resize form visible), shows the select form, hides the
other two and discards the crop helper. -/
theorem filterFormOnreset_returns_to_resize (s : Upload)
    (hstage : (s.uploadFormInvisible, s.resizeFormInvisible, s.filterFormInvisible)
      = (true, true, false)) :
    (∃ s1, filterFormOnreset s = .ok s1 ∧
      (s1.uploadFormInvisible, s1.resizeFormInvisible, s1.filterFormInvisible)
        = (true, false, true) ∧
      visibleForms s1 = 1 ∧ s1.currentResizer = s.currentResizer ∧
      s1.live = s.live ∧ s1.removeCalls = s.removeCalls ∧
      s1 = { s with filterFormInvisible := true, resizeFormInvisible := false }) ∧
    (∀ t : Upload,
      (t.uploadFormInvisible, t.resizeFormInvisible, t.filterFormInvisible)
        = (true, false, true) →
      ∃ t1, resizeFormOnreset t = .ok t1 ∧
        (t1.uploadFormInvisible, t1.resizeFormInvisible, t1.filterFormInvisible)
          = (false, true, true) ∧
        visibleForms t1 = 1 ∧ t1.currentResizer = none ∧
        t1.removeCalls = t.removeCalls + (if t.currentResizer.isSome then 1 else 0)) := by
  simp only [Prod.mk.injEq] at hstage
  refine ⟨⟨_, rfl, ?_, ?_, rfl, rfl, rfl, rfl⟩, ?_⟩
  · simp [hstage.1]
  · simp [visibleForms, hstage.1]
  · intro t ht
    simp only [Prod.mk.injEq] at ht
    cases hc : t.currentResizer with
    | none =>
      simp only [resizeFormOnreset, cleanupResizer, hc, bind, Except.bind, pure, Except.pure]
      refine ⟨_, rfl, ?_, ?_, rfl, ?_⟩
      · simp [ht.2.2]
      · simp [visibleForms, ht.2.2]
      · simp
    | some r =>
      simp only [resizeFormOnreset, cleanupResizer, hc, bind, Except.bind, pure, Except.pure]
      refine ⟨_, rfl, ?_, ?_, rfl, ?_⟩
      · simp [Resizer.remove, ht.2.2]
      · simp [visibleForms, Resizer.remove, ht.2.2]
      · simp [Resizer.remove]

/-- The amended C9 at the example filter stage, and the resize reset at the example resize
stage. -/
theorem filterFormOnreset_returns_to_resize_witness :
    (filterStage.uploadFormInvisible, filterStage.resizeFormInvisible,
      filterStage.filterFormInvisible) = (true, true, false) ∧
    (∃ s1, filterFormOnreset filterStage = .ok s1 ∧ visibleForms s1 = 1 ∧
      s1.resizeFormInvisible = false ∧ s1.currentResizer = filterStage.currentResizer) ∧
    (∃ t1, resizeFormOnreset (resizeStage 120 100 "0" "0" "0") = .ok t1 ∧
      t1.uploadFormInvisible = false ∧ t1.currentResizer = none ∧ t1.removeCalls = 1) := by
  have key := filterFormOnreset_returns_to_resize filterStage rfl
  refine ⟨rfl, ?_, ?_⟩
  · obtain ⟨s1, h, h2, h3, h4, _⟩ := key.1
    simp only [Prod.mk.injEq] at h2
    exact ⟨s1, h, h3, h2.2.1, h4⟩
  · obtain ⟨t1, h, h2, _, h4, h5⟩ := key.2 (resizeStage 120 100 "0" "0" "0") rfl
    simp only [Prod.mk.injEq] at h2
    exact ⟨t1, h, h2.1, h4, by simpa [resizeStage, initialState] using h5⟩

/-! ## Crop helpers -/

theorem liveIsCurrent_initialState : liveIsCurrent initialState := rfl

theorem cleanupResizer_spec (s : Upload) (hinv : liveIsCurrent s) :
    ∃ s1, cleanupResizer s = .ok s1 ∧ s1.currentResizer = none ∧ s1.live = [] ∧
      s1.removeCalls = s.removeCalls + s.live.length ∧
      s1.uploadFormInvisible = s.uploadFormInvisible ∧
      s1.resizeFormInvisible = s.resizeFormInvisible ∧
      s1.filterFormInvisible = s.filterFormInvisible ∧
      s1.constructed = s.constructed := by
  unfold liveIsCurrent at hinv
  cases hc : s.currentResizer with
  | none =>
    rw [hc] at hinv
    exact ⟨s, by simp [cleanupResizer, hc], hc, hinv, by simp [hinv], rfl, rfl, rfl, rfl⟩
  | some r =>
    rw [hc] at hinv
    simp only [cleanupResizer, hc]
    refine ⟨_, rfl, rfl, ?_, ?_, rfl, rfl, rfl, rfl⟩
    · simp [Resizer.remove, hinv]
    · simp [Resizer.remove, hinv]

theorem cleanupResizer_none (s : Upload) (hc : s.currentResizer = none) :
    cleanupResizer s = .ok s := by
  simp [cleanupResizer, hc]

theorem fileReaderOnload_spec (w h : Nat) (s : Upload) (hinv : liveIsCurrent s) :
    ∃ s1, fileReaderOnload w h s = .ok s1 ∧ liveIsCurrent s1 ∧ s1.live.length = 1 ∧
      s1.currentResizer = some ⟨s.constructed, w, h⟩ := by
  obtain ⟨c, hc, hcur, hlive, _, _, _, _, hcons⟩ := cleanupResizer_spec s hinv
  simp only [fileReaderOnload, hc, bind, Except.bind, pure, Except.pure]
  refine ⟨_, rfl, ?_, ?_, ?_⟩
  · simp [liveIsCurrent, hideMessage, hlive]
  · simp [hideMessage, hlive]
  · simp [hideMessage, hcons]

theorem resizeFormOnreset_spec (s : Upload) (hinv : liveIsCurrent s) :
    ∃ s1, resizeFormOnreset s = .ok s1 ∧ liveIsCurrent s1 ∧ s1.currentResizer = none ∧
      s1.live = [] ∧ s1.removeCalls = s.removeCalls + s.live.length := by
  obtain ⟨c, hc, hcur, hlive, hrem, _⟩ := cleanupResizer_spec s hinv
  simp only [resizeFormOnreset, hc, bind, Except.bind, pure, Except.pure]
  refine ⟨_, rfl, ?_, hcur, hlive, hrem⟩
  simp [liveIsCurrent, hcur, hlive]

theorem filterFormOnsubmit_spec (s : Upload) (hinv : liveIsCurrent s) :
    ∃ s1, filterFormOnsubmit s = .ok s1 ∧ liveIsCurrent s1 ∧ s1.currentResizer = none ∧
      s1.live = [] ∧ s1.removeCalls = s.removeCalls + s.live.length := by
  obtain ⟨c, hc, hcur, hlive, hrem, _⟩ := cleanupResizer_spec s hinv
  simp only [filterFormOnsubmit, hc, bind, Except.bind, pure, Except.pure]
  refine ⟨_, rfl, ?_, hcur, hlive, hrem⟩
  simp [liveIsCurrent, hcur, hlive]

theorem runHandlers_liveIsCurrent (evs : List HelperEvent) :
    ∀ s, liveIsCurrent s → ∃ s1, runHandlers evs s = .ok s1 ∧ liveIsCurrent s1 := by
  induction evs with
  | nil => intro s hs; exact ⟨s, rfl, hs⟩
  | cons e rest ih =>
    intro s hs
    have step : ∃ s1, e.handler s = .ok s1 ∧ liveIsCurrent s1 := by
      cases e with
      | readDone w h =>
        obtain ⟨s1, h1, h2, _⟩ := fileReaderOnload_spec w h s hs
        exact ⟨s1, h1, h2⟩
      | resizeReset =>
        obtain ⟨s1, h1, h2, _⟩ := resizeFormOnreset_spec s hs
        exact ⟨s1, h1, h2⟩
      | filterSubmit =>
        obtain ⟨s1, h1, h2, _⟩ := filterFormOnsubmit_spec s hs
        exact ⟨s1, h1, h2⟩
    obtain ⟨s1, h1, h2⟩ := step
    obtain ⟨s2, h3, h4⟩ := ih s1 h2
    exact ⟨s2, by simp only [runHandlers, h1, h3], h4⟩

/-- C7: every sequence of file-read completions, resize resets and filter submits runs
without throwing and ends in a state where the helpers constructed and not yet removed are
exactly the current helper, hence at most one; a further file-read completion leaves exactly
one, and two resize resets after it both succeed and call `remove` exactly once in total;
`cleanupResizer` never throws, calls `remove` once per live helper and clears the
reference, and does nothing without a current helper; and two resize resets in a row both
succeed, the second one removing nothing. -/
theorem at_most_one_live_helper (evs : List HelperEvent) :
    ∃ s, runHandlers evs initialState = .ok s ∧
      s.live.length ≤ 1 ∧ s.live = (s.currentResizer.map Resizer.serial).toList ∧
      (∀ w h, ∃ s1 s2 s3, fileReaderOnload w h s = .ok s1 ∧ s1.live.length = 1 ∧
        s1.live = (s1.currentResizer.map Resizer.serial).toList ∧
        resizeFormOnreset s1 = .ok s2 ∧ resizeFormOnreset s2 = .ok s3 ∧
        s3.removeCalls = s1.removeCalls + 1 ∧ s3.live = []) ∧
      (∃ s1, cleanupResizer s = .ok s1 ∧ s1.currentResizer = none ∧ s1.live = [] ∧
        s1.removeCalls = s.removeCalls + s.live.length ∧
        (s.currentResizer = none → s1 = s)) ∧
      (∃ s1 s2, resizeFormOnreset s = .ok s1 ∧ resizeFormOnreset s1 = .ok s2 ∧
        s1.removeCalls = s.removeCalls + s.live.length ∧ s2.removeCalls = s1.removeCalls ∧
        s2.live = [] ∧ s2.currentResizer = none) := by
  obtain ⟨s, hrun, hinv⟩ := runHandlers_liveIsCurrent evs initialState liveIsCurrent_initialState
  have hlist : ∀ t : Upload, liveIsCurrent t →
      t.live = (t.currentResizer.map Resizer.serial).toList := by
    intro t ht
    unfold liveIsCurrent at ht
    cases hc : t.currentResizer <;> simp [hc] at ht <;> simp [ht]
  refine ⟨s, hrun, ?_, hlist s hinv, ?_, ?_, ?_⟩
  · rw [hlist s hinv]
    cases s.currentResizer <;> simp
  · intro w h
    obtain ⟨s1, h1, h2, h3, _⟩ := fileReaderOnload_spec w h s hinv
    obtain ⟨s2, g1, g2, _, g4, g5⟩ := resizeFormOnreset_spec s1 h2
    obtain ⟨s3, k1, _, _, k4, k5⟩ := resizeFormOnreset_spec s2 g2
    exact ⟨s1, s2, s3, h1, h3, hlist s1 h2, g1, k1, by simp [k5, g5, g4, h3], k4⟩
  · obtain ⟨s1, h1, h2, h3, h4, _⟩ := cleanupResizer_spec s hinv
    refine ⟨s1, h1, h2, h3, h4, ?_⟩
    intro hnone
    have := cleanupResizer_none s hnone
    rw [h1] at this
    exact Except.ok.inj this
  · obtain ⟨s1, h1, h2, h3, h4, h5⟩ := resizeFormOnreset_spec s hinv
    obtain ⟨s2, g1, _, g3, g4, g5⟩ := resizeFormOnreset_spec s1 h2
    exact ⟨s1, s2, h1, g1, h5, by simp [g5, h4], g4, g3⟩

/-! ## Visibility of the forms -/

theorem step_keeps_one_visible (up : Nat → Nat) (e : WizardStep) (s : Upload)
    (hen : e.enabled up false s = true) (hv : visibleForms s = 1) :
    visibleForms (settle s (e.handler up s)) = 1 := by
  obtain ⟨cur, u, z, f, mi, me, rx, ry, rs, sd, fi, co, li, rc, rst, lf⟩ := s
  cases e with
  | selectFile t =>
    simp only [WizardStep.enabled, Bool.and_eq_true] at hen
    simp only [WizardStep.handler, uploadFormOnchange, hen.2, if_true, settle, showMessage]
    exact hv
  | readDone w h =>
    simp only [WizardStep.enabled, Bool.and_eq_true, Bool.false_or] at hen
    cases cur <;> cases u <;> cases z <;> cases f <;>
      simp_all [visibleForms, WizardStep.handler, fileReaderOnload, cleanupResizer, settle,
        hideMessage, Resizer.remove, bind, Except.bind, pure, Except.pure]
  | resizeReset =>
    cases cur <;> cases u <;> cases z <;> cases f <;>
      simp_all [visibleForms, WizardStep.enabled, WizardStep.handler, resizeFormOnreset,
        cleanupResizer, settle, Resizer.remove, bind, Except.bind, pure, Except.pure]
  | resizeSubmit =>
    cases cur <;> cases u <;> cases z <;> cases f <;>
      simp_all [visibleForms, WizardStep.enabled, WizardStep.handler, resizeFormOnsubmit,
        resizeFormIsValid, settle]
  | filterReset =>
    cases u <;> cases z <;> cases f <;>
      simp_all [visibleForms, WizardStep.enabled, WizardStep.handler, filterFormOnreset, settle]
  | filterSubmit =>
    cases cur <;> cases u <;> cases z <;> cases f <;>
      simp_all [visibleForms, WizardStep.enabled, WizardStep.handler, filterFormOnsubmit,
        cleanupResizer, settle, Resizer.remove, bind, Except.bind, pure, Except.pure]

theorem runWizard_keeps_one_visible (up : Nat → Nat) (steps : List WizardStep) :
    ∀ s s1, visibleForms s = 1 → runWizard up false steps s = some s1 →
      visibleForms s1 = 1 := by
  induction steps with
  | nil =>
    intro s s1 hv hrun
    simp only [runWizard, Option.some.injEq] at hrun
    exact hrun ▸ hv
  | cons e rest ih =>
    intro s s1 hv hrun
    simp only [runWizard] at hrun
    split at hrun
    · next hen => exact ih _ s1 (step_keeps_one_visible up e s hen hv) hrun
    · exact absurd hrun (by simp)

/-- C8 (counterexample): two accepted files are selected in the select stage, the first read
completes, the resize form is submitted, and then the second read completes in the filter
stage: the resize form and the filter form are both visible. -/
theorem late_read_shows_two_forms :
    (runWizard id true
        [.selectFile "image/png", .selectFile "image/png", .readDone 640 480, .resizeSubmit,
          .readDone 800 600] initialState).map
      (fun s => (s.uploadFormInvisible, s.resizeFormInvisible, s.filterFormInvisible,
        visibleForms s))
      = some (true, false, false, 2) := by
  decide

/-- C8 (amended): in every state reachable from the initial state by the wizard's steps, a
pending file read completing only while the filter form is hidden, that is in the select or
in the resize stage (selecting an accepted file in the select stage, resize reset or submit
in the resize stage, filter reset or submit in the filter stage being as before), exactly
one of the three forms lacks the class `invisible`. -/
theorem exactly_one_form_visible (toUpperCase : Nat → Nat) (steps : List WizardStep)
    (s : Upload) (hrun : runWizard toUpperCase false steps initialState = some s) :
    visibleForms s = 1 :=
  runWizard_keeps_one_visible toUpperCase steps initialState s rfl hrun

/-- The amended C8 on a run in which a second read completes in the resize stage, followed by
a pass through the filter stage and back to the select stage. -/
theorem exactly_one_form_visible_witness :
    ∃ s, runWizard id false
        [.selectFile "image/png", .selectFile "image/gif", .readDone 640 480,
          .readDone 800 600, .resizeSubmit, .filterReset, .resizeSubmit, .filterSubmit]
        initialState = some s ∧
      visibleForms s = 1 ∧ s.uploadFormInvisible = false := by
  have hrun : (runWizard id false
        [.selectFile "image/png", .selectFile "image/gif", .readDone 640 480,
          .readDone 800 600, .resizeSubmit, .filterReset, .resizeSubmit, .filterSubmit]
        initialState).isSome = true := by decide
  obtain ⟨s, hs⟩ := Option.isSome_iff_exists.1 hrun
  refine ⟨s, hs, exactly_one_form_visible id _ s hs, ?_⟩
  have h2 : (runWizard id false
        [.selectFile "image/png", .selectFile "image/gif", .readDone 640 480,
          .readDone 800 600, .resizeSubmit, .filterReset, .resizeSubmit, .filterSubmit]
        initialState).map (fun s => s.uploadFormInvisible)
      = some false := by decide
  rw [hs] at h2
  simpa using h2

/-! ## The file type check -/

theorem fileRegExp_compiled :
    parsePattern fileRegExpSource = some
      (.seq .bol (Re.word (codeUnits "image/")
        (.seq
          (.alt (Re.word (codeUnits "GIF") .empty)
            (.alt (Re.word (codeUnits "JPEG") .empty)
              (.alt (Re.word (codeUnits "PNG") .empty) (Re.word (codeUnits "SVG+XML") .empty))))
          (.seq .eol .empty)))) := by
  decide

theorem fileRegExp_eq :
    fileRegExp =
      .seq .bol (Re.word (codeUnits "image/")
        (.seq
          (.alt (Re.word (codeUnits "GIF") .empty)
            (.alt (Re.word (codeUnits "JPEG") .empty)
              (.alt (Re.word (codeUnits "PNG") .empty) (Re.word (codeUnits "SVG+XML") .empty))))
          (.seq .eol .empty))) := by
  simp only [fileRegExp, fileRegExp_compiled, Option.getD_some]

theorem run_word (canon : Nat → Nat) (tail : Re) (k : Bool → List Nat → Bool)
    (cs : List Nat) : ∀ (st : Bool) (inp : List Nat),
    (Re.word cs tail).run canon st inp k =
      match stripWord canon cs inp with
      | some rest => tail.run canon (st && cs.isEmpty) rest k
      | none => false := by
  induction cs with
  | nil => intro st inp; simp [Re.word, stripWord]
  | cons c cs ih =>
    intro st inp
    cases inp with
    | nil => simp [Re.word, stripWord, Re.run]
    | cons d rest =>
      have h := ih false rest
      simp only [Re.word, List.foldr_cons, Re.run, stripWord] at h ⊢
      by_cases hc : canon d = canon c
      · simp only [hc, if_true]
        rw [h]
        simp
      · simp [hc]

theorem stripWord_append (canon : Nat → Nat) (a b : List Nat) : ∀ inp : List Nat,
    stripWord canon (a ++ b) inp = (stripWord canon a inp).bind (stripWord canon b) := by
  induction a with
  | nil => intro inp; simp [stripWord]
  | cons c cs ih =>
    intro inp
    cases inp with
    | nil => cases b <;> simp [stripWord]
    | cons d rest =>
      by_cases hc : canon d = canon c <;> simp [stripWord, hc, ih]

theorem asciiLower_eq_iff (up : Nat → Nat) (d p : Nat) (hp : p < 128) :
    canonicalize up d = canonicalize up p ↔ asciiLower d = asciiLower p := by
  unfold canonicalize asciiUpper asciiLower
  rw [if_pos hp]
  by_cases hd : d < 128
  · rw [if_pos hd]
    split_ifs <;> omega
  · rw [if_neg hd]
    split_ifs <;> omega

theorem stripWord_exact_iff (up : Nat → Nat) (cs : List Nat) (hcs : ∀ p ∈ cs, p < 128) :
    ∀ inp : List Nat,
      stripWord (canonicalize up) cs inp = some [] ↔ inp.map asciiLower = cs.map asciiLower := by
  induction cs with
  | nil => intro inp; cases inp <;> simp [stripWord]
  | cons c cs ih =>
    intro inp
    cases inp with
    | nil => simp [stripWord]
    | cons d rest =>
      have hc : c < 128 := hcs c (by simp)
      have ih2 := ih (fun p hp => hcs p (by simp [hp])) rest
      simp only [stripWord, List.map_cons, List.cons.injEq]
      by_cases h : canonicalize up d = canonicalize up c
      · simp only [h, if_true, ih2]
        have := (asciiLower_eq_iff up d c hc).1 h
        simp [this]
      · have := mt (asciiLower_eq_iff up d c hc).2 h
        simp [h, this]

theorem searchFrom_bol_false (canon : Nat → Nat) (re : Re) : ∀ inp : List Nat,
    (Re.seq .bol re).searchFrom canon false inp = false := by
  intro inp
  induction inp with
  | nil => simp [Re.searchFrom, Re.run]
  | cons c rest ih => simp [Re.searchFrom, Re.run, ih]

theorem searchFrom_bol_true (canon : Nat → Nat) (re : Re) (inp : List Nat) :
    (Re.seq .bol re).searchFrom canon true inp = re.run canon true inp (fun _ _ => true) := by
  cases inp <;> simp [Re.searchFrom, Re.run, searchFrom_bol_false]

theorem matchesWord_append (canon : Nat → Nat) (a b inp : List Nat) :
    matchesWord canon (a ++ b) inp =
      match stripWord canon a inp with
      | some rest => matchesWord canon b rest
      | none => false := by
  unfold matchesWord
  rw [stripWord_append]
  cases stripWord canon a inp <;> simp

theorem matchesWord_iff (up : Nat → Nat) (cs inp : List Nat) (hcs : ∀ p ∈ cs, p < 128) :
    matchesWord (canonicalize up) cs inp = true ↔ inp.map asciiLower = cs.map asciiLower := by
  rw [← stripWord_exact_iff up cs hcs inp]
  unfold matchesWord
  cases stripWord (canonicalize up) cs inp with
  | none => simp
  | some r => cases r <;> simp

theorem run_word_then_eol (canon : Nat → Nat) (cs : List Nat) (st : Bool) (inp : List Nat) :
    (Re.word cs .empty).run canon st inp (fun _ inp2 => inp2.isEmpty && true)
      = matchesWord canon cs inp := by
  rw [run_word]
  unfold matchesWord
  cases stripWord canon cs inp <;> simp [Re.run]

theorem run_four_words (canon : Nat → Nat) (a b c d : List Nat) (st : Bool)
    (inp : List Nat) :
    (Re.seq
        (.alt (Re.word a .empty)
          (.alt (Re.word b .empty) (.alt (Re.word c .empty) (Re.word d .empty))))
        (.seq .eol .empty)).run canon st inp (fun _ _ => true)
      = (matchesWord canon a inp || (matchesWord canon b inp ||
          (matchesWord canon c inp || matchesWord canon d inp))) := by
  simp only [Re.run, run_word_then_eol]

theorem fileRegExp_test_eq (up : Nat → Nat) (t : String) :
    fileRegExp.test up t =
      (matchesWord (canonicalize up) (codeUnits "image/" ++ codeUnits "GIF") (codeUnits t) ||
      (matchesWord (canonicalize up) (codeUnits "image/" ++ codeUnits "JPEG") (codeUnits t) ||
      (matchesWord (canonicalize up) (codeUnits "image/" ++ codeUnits "PNG") (codeUnits t) ||
      matchesWord (canonicalize up) (codeUnits "image/" ++ codeUnits "SVG+XML")
        (codeUnits t)))) := by
  rw [Re.test, fileRegExp_eq, searchFrom_bol_true, run_word]
  simp only [matchesWord_append]
  cases stripWord (canonicalize up) (codeUnits "image/") (codeUnits t) with
  | none => simp
  | some rest => exact run_four_words _ _ _ _ _ _ rest

theorem fileRegExp_test_iff (up : Nat → Nat) (t : String) :
    fileRegExp.test up t = true ↔ ∃ m ∈ acceptedTypes, equalsIgnoringCase t m = true := by
  rw [fileRegExp_test_eq]
  simp only [Bool.or_eq_true]
  rw [matchesWord_iff up _ _ (by decide), matchesWord_iff up _ _ (by decide),
    matchesWord_iff up _ _ (by decide), matchesWord_iff up _ _ (by decide)]
  have e1 : (codeUnits "image/" ++ codeUnits "GIF").map asciiLower
      = (codeUnits "image/gif").map asciiLower := by decide
  have e2 : (codeUnits "image/" ++ codeUnits "JPEG").map asciiLower
      = (codeUnits "image/jpeg").map asciiLower := by decide
  have e3 : (codeUnits "image/" ++ codeUnits "PNG").map asciiLower
      = (codeUnits "image/png").map asciiLower := by decide
  have e4 : (codeUnits "image/" ++ codeUnits "SVG+XML").map asciiLower
      = (codeUnits "image/svg+xml").map asciiLower := by decide
  rw [e1, e2, e3, e4]
  simp [acceptedTypes, equalsIgnoringCase]

/-- C5: the upload change handler accepts a file of MIME type `t` (the check succeeds and a
read is started, the message shown not being an error) exactly when `t` equals, ignoring
letter case, one of `image/gif`, `image/jpeg`, `image/png`, `image/svg+xml`; for every other
type, `image/bmp` among them, it shows the error message and starts no read; in both cases
the visibility of the three forms is as before, so the resize form is not shown. -/
theorem upload_accepts_allowed_types_only (toUpperCase : Nat → Nat) (t : String)
    (s : Upload) :
    (fileRegExp.test toUpperCase t = true ↔
      ∃ m ∈ acceptedTypes, equalsIgnoringCase t m = true) ∧
    fileRegExp.test toUpperCase "image/bmp" = false ∧
    ∃ s1, uploadFormOnchange toUpperCase "upload-file" (some t) s = .ok s1 ∧
      s1.readsStarted = s.readsStarted + (if fileRegExp.test toUpperCase t then 1 else 0) ∧
      s1.uploadMessageInvisible = false ∧
      s1.uploadMessageError = !fileRegExp.test toUpperCase t ∧
      s1.uploadFormInvisible = s.uploadFormInvisible ∧
      s1.resizeFormInvisible = s.resizeFormInvisible ∧
      s1.filterFormInvisible = s.filterFormInvisible ∧
      s1.currentResizer = s.currentResizer ∧ s1.loadsFired = s.loadsFired := by
  refine ⟨fileRegExp_test_iff toUpperCase t, ?_, ?_⟩
  · rw [← Bool.not_eq_true, fileRegExp_test_iff]
    decide
  · cases h : fileRegExp.test toUpperCase t
    · simp only [uploadFormOnchange, h, if_true]
      exact ⟨_, rfl, by simp [showMessage], rfl, rfl, rfl, rfl, rfl, rfl, rfl⟩
    · simp only [uploadFormOnchange, h, if_true]
      exact ⟨_, rfl, by simp [showMessage], rfl, rfl, rfl, rfl, rfl, rfl, rfl⟩

end Kekstagram
